import Mathlib

/-!
Shallow embedding of the conditional-visibility evaluator of the
ai-form-builder repository.

The evaluator lives in `src/components/ConditionalLogicEditor.tsx`
(`evaluateConditionalLogic`, lines 165–202) and is wrapped by
`isFieldVisible` in `src/components/FormPreview.tsx` (lines 36–42).
The TypeScript function is pure: it receives a possibly-null
`ConditionalLogic` record, a `formData : Record<string, any>` answer map,
and the list of fields `{ id, field_name }`, and returns a boolean.

JavaScript runtime values stored in `formData` are modelled by `JSValue`
(strings, booleans, numbers as integers, and `null`); a key that is absent
from the record reads as `undefined`, which we model as `none` in
`Option JSValue`.  The answer map itself is modelled as a total function
`String → Option JSValue`, since the evaluator only ever reads one key.
-/

namespace AIFormBuilder

/-- A JavaScript value as it can appear in the `formData` record of the
form-builder: a string, a boolean, a number (integers suffice for the
evaluator, which never does arithmetic), or `null`.  An absent key
(`undefined`) is modelled as `none` at the `Option JSValue` level. -/
inductive JSValue where
  | str (s : String)
  | bool (b : Bool)
  | num (n : Int)
  | null
deriving DecidableEq

/-- JavaScript truthiness test: `""`, `false`, `0` and `null` are falsy
(`undefined`, the remaining falsy value, is handled at the `Option`
level). -/
def JSValue.falsy : JSValue → Bool
  | .str s => s == ""
  | .bool b => !b
  | .num n => n == 0
  | .null => true

/-- The JavaScript `String(·)` conversion on a `JSValue`. -/
def JSValue.jsToString : JSValue → String
  | .str s => s
  | .bool b => if b then "true" else "false"
  | .num n => toString n
  | .null => "null"

/-- Model of the JavaScript expression `String(v || "")` applied to the
looked-up source value `v` (line 186/189/192 of
`ConditionalLogicEditor.tsx`): a missing value or any falsy value becomes
the empty string, anything else its string form. -/
def jsStringOrEmpty (v : Option JSValue) : String :=
  match v with
  | none => ""
  | some x => if x.falsy then "" else x.jsToString

/-- Model of JavaScript `s.toLowerCase()`: lower-case every character
(ASCII case mapping; all literals in the repository are ASCII). -/
def jsToLowerCase (s : String) : String :=
  ⟨s.data.map Char.toLower⟩

/-- Model of JavaScript `s.includes(sub)`: `sub` occurs contiguously
inside `s`. -/
def jsIncludes (s sub : String) : Bool :=
  decide (sub.data <:+: s.data)

/-- The `operator` union type of `ConditionalLogic`
(`"equals" | "not_equals" | "contains" | "not_empty"`). -/
inductive RuleOperator where
  | equals
  | not_equals
  | contains
  | not_empty
deriving DecidableEq

/-- The `ConditionalLogic` interface of `ConditionalLogicEditor.tsx`
(lines 10–16).  The `action` field is the string union
`"show" | "hide"`; we keep it as a `String` because the evaluator only
ever compares it against the literal `"show"`. -/
structure ConditionalLogic where
  enabled : Bool
  action : String
  sourceFieldId : String
  operator : RuleOperator
  value : String
deriving DecidableEq

/-- The field shape the evaluator receives
(`{ id: string; field_name: string }[]`, line 168). -/
structure FieldRef where
  id : String
  field_name : String
deriving DecidableEq

/-- The body of the `switch (logic.operator)` statement (lines 184–197):
given the looked-up source value and the rule literal `targetValue`,
decide whether the condition is met. -/
def evalCondition (op : RuleOperator) (sourceValue : Option JSValue)
    (targetValue : String) : Bool :=
  match op with
  | .equals =>
      jsToLowerCase (jsStringOrEmpty sourceValue) == jsToLowerCase targetValue
  | .not_equals =>
      jsToLowerCase (jsStringOrEmpty sourceValue) != jsToLowerCase targetValue
  | .contains =>
      jsIncludes (jsToLowerCase (jsStringOrEmpty sourceValue))
        (jsToLowerCase targetValue)
  | .not_empty =>
      sourceValue != none && sourceValue != some (JSValue.str "") &&
      sourceValue != some JSValue.null && sourceValue != some (JSValue.bool false)

/-- `evaluateConditionalLogic` of `ConditionalLogicEditor.tsx`
(lines 165–202): a null or disabled rule is always visible; an
unresolvable `sourceFieldId` is always visible; otherwise the operator is
evaluated on `formData[sourceField.field_name]` and combined with the
action (`"show"` keeps the condition, anything else negates it, matching
the ternary on line 201). -/
def evaluateConditionalLogic (logic : Option ConditionalLogic)
    (formData : String → Option JSValue)
    (fields : List FieldRef) : Bool :=
  match logic with
  | none => true
  | some l =>
    if !l.enabled then
      true
    else
      match fields.find? (fun f => f.id == l.sourceFieldId) with
      | none => true
      | some sourceField =>
        let sourceValue := formData sourceField.field_name
        let conditionMet := evalCondition l.operator sourceValue l.value
        if l.action == "show" then conditionMet else !conditionMet

/-- The `Field` interface of `FormPreview.tsx` (lines 12–22). -/
structure PreviewField where
  id : String
  field_name : String
  field_type : String
  field_label : String
  placeholder : String
  required : Bool
  options : Option (List String)
  order_index : Int
  conditional_logic : Option ConditionalLogic

/-- `isFieldVisible` of `FormPreview.tsx` (lines 36–42): delegates to
`evaluateConditionalLogic` with the field's own rule
(`field.conditional_logic || null`), the live preview answers, and the
id/name projection of all fields. -/
def isFieldVisible (field : PreviewField)
    (previewData : String → Option JSValue)
    (fields : List PreviewField) : Bool :=
  evaluateConditionalLogic field.conditional_logic previewData
    (fields.map fun f => ⟨f.id, f.field_name⟩)

/-- C1: for every answer set and field collection, a field whose
conditional rule is absent (null) or whose `enabled` flag is false is
always visible — both through `evaluateConditionalLogic` directly and
through `isFieldVisible`. -/
theorem no_rule_or_disabled_visible :
    (∀ (logic : Option ConditionalLogic) (formData : String → Option JSValue)
       (fields : List FieldRef),
       (∀ c, logic = some c → c.enabled = false) →
       evaluateConditionalLogic logic formData fields = true) ∧
    (∀ (field : PreviewField) (previewData : String → Option JSValue)
       (fields : List PreviewField),
       (∀ c, field.conditional_logic = some c → c.enabled = false) →
       isFieldVisible field previewData fields = true) := by
  have main : ∀ (logic : Option ConditionalLogic)
      (formData : String → Option JSValue) (fields : List FieldRef),
      (∀ c, logic = some c → c.enabled = false) →
      evaluateConditionalLogic logic formData fields = true := by
    intro logic formData fields h
    match logic with
    | none => rfl
    | some c =>
      have hc := h c rfl
      simp [evaluateConditionalLogic, hc]
  exact ⟨main, fun field pd fields h => main _ _ _ h⟩

theorem no_rule_or_disabled_visible_witness :
    evaluateConditionalLogic none (fun _ => none) [] = true ∧
    isFieldVisible
      ⟨"f2", "extra", "text", "Extra", "", false, none, 1,
        some ⟨false, "show", "f1", RuleOperator.equals, "yes"⟩⟩
      (fun _ => none) [] = true :=
  ⟨no_rule_or_disabled_visible.1 none (fun _ => none) []
      (fun c h => by cases h),
   no_rule_or_disabled_visible.2 _ (fun _ => none) []
      (fun c h => by cases h; rfl)⟩

/-- C2: an enabled rule whose `sourceFieldId` matches no field id in the
supplied field collection makes the evaluator return true, regardless of
the rule's action, operator, comparison literal, and the answer set. -/
theorem missing_source_field_visible (c : ConditionalLogic)
    (formData : String → Option JSValue) (fields : List FieldRef)
    (hen : c.enabled = true)
    (hmiss : ∀ f ∈ fields, f.id ≠ c.sourceFieldId) :
    evaluateConditionalLogic (some c) formData fields = true := by
  have hfind : fields.find? (fun f => f.id == c.sourceFieldId) = none :=
    List.find?_eq_none.mpr (fun f hf => by simpa using hmiss f hf)
  simp [evaluateConditionalLogic, hen, hfind]

theorem missing_source_field_visible_witness :
    evaluateConditionalLogic
      (some ⟨true, "hide", "b", RuleOperator.equals, "v"⟩)
      (fun _ => none) [⟨"a", "x"⟩] = true :=
  missing_source_field_visible _ _ _ rfl (by decide)

/-- C3: the evaluator is total — it returns a boolean on every input
(including rules whose `sourceFieldId` is the conditioned field itself,
which the evaluator cannot even distinguish) — and every input whose
condition cannot be evaluated (absent rule, disabled rule, or
unresolvable source field) yields `true`, never a hidden field. -/
theorem evaluator_total_fail_open (logic : Option ConditionalLogic)
    (formData : String → Option JSValue) (fields : List FieldRef) :
    (evaluateConditionalLogic logic formData fields = true ∨
     evaluateConditionalLogic logic formData fields = false) ∧
    ((logic = none ∨
        ∃ c, logic = some c ∧ (c.enabled = false ∨
          fields.find? (fun f => f.id == c.sourceFieldId) = none)) →
      evaluateConditionalLogic logic formData fields = true) := by
  constructor
  · cases evaluateConditionalLogic logic formData fields <;> simp
  · rintro (rfl | ⟨c, rfl, hc | hc⟩)
    · rfl
    · simp [evaluateConditionalLogic, hc]
    · cases hen : c.enabled <;>
        simp [evaluateConditionalLogic, hen, hc]

theorem evaluator_total_fail_open_witness :
    evaluateConditionalLogic
      (some ⟨true, "hide", "gone", RuleOperator.not_empty, ""⟩)
      (fun _ => some (JSValue.str "x")) [⟨"a", "x"⟩] = true :=
  (evaluator_total_fail_open _ _ _).2 (Or.inr ⟨_, rfl, Or.inr (by decide)⟩)

/-- C4 counterexample: for a disabled rule the claim fails — the
evaluator returns `true` for both actions, so the "hide" result is not
the negation of the "show" result. -/
theorem hide_not_negation_of_show :
    ¬ (evaluateConditionalLogic
         (some ⟨false, "hide", "f1", RuleOperator.equals, "yes"⟩)
         (fun _ => none) [⟨"f1", "subscribe"⟩]
       = !(evaluateConditionalLogic
         (some ⟨false, "show", "f1", RuleOperator.equals, "yes"⟩)
         (fun _ => none) [⟨"f1", "subscribe"⟩])) := by decide

/-- C4 (amended): for every *enabled* rule *whose source field resolves*,
evaluating with action "hide" returns the negation of evaluating the
identical rule with action "show" on the same answers and fields. -/
theorem hide_negates_show (c : ConditionalLogic)
    (formData : String → Option JSValue) (fields : List FieldRef)
    (hen : c.enabled = true)
    (hres : (fields.find? (fun f => f.id == c.sourceFieldId)).isSome = true) :
    evaluateConditionalLogic (some { c with action := "hide" }) formData fields
      = !(evaluateConditionalLogic (some { c with action := "show" })
            formData fields) := by
  obtain ⟨src, hfind⟩ := Option.isSome_iff_exists.mp hres
  simp [evaluateConditionalLogic, hen, hfind]

theorem hide_negates_show_witness :
    evaluateConditionalLogic
        (some ⟨true, "hide", "f1", RuleOperator.not_empty, ""⟩)
        (fun _ => none) [⟨"f1", "subscribe"⟩]
      = !(evaluateConditionalLogic
        (some ⟨true, "show", "f1", RuleOperator.not_empty, ""⟩)
        (fun _ => none) [⟨"f1", "subscribe"⟩]) :=
  hide_negates_show ⟨true, "", "f1", RuleOperator.not_empty, ""⟩ _ _
    rfl (by decide)

/-- C5: for an enabled `equals` rule with action "show" whose source
field resolves, the result is exactly the lower-cased comparison of the
normalized source value (`String(v || "")`, so an absent value becomes
the empty string) against the lower-cased rule literal. -/
theorem equals_rule_semantics (c : ConditionalLogic)
    (formData : String → Option JSValue) (fields : List FieldRef)
    (src : FieldRef)
    (hen : c.enabled = true) (hop : c.operator = RuleOperator.equals)
    (hact : c.action = "show")
    (hfind : fields.find? (fun f => f.id == c.sourceFieldId) = some src) :
    evaluateConditionalLogic (some c) formData fields
      = (jsToLowerCase (jsStringOrEmpty (formData src.field_name))
          == jsToLowerCase c.value) := by
  simp [evaluateConditionalLogic, hen, hfind, hact, evalCondition, hop]

theorem equals_rule_semantics_witness :
    evaluateConditionalLogic
      (some ⟨true, "show", "f1", RuleOperator.equals, "yes"⟩)
      (fun n => if n = "subscribe" then some (JSValue.str "Yes") else none)
      [⟨"f1", "subscribe"⟩] = true ∧
    evaluateConditionalLogic
      (some ⟨true, "show", "f1", RuleOperator.equals, "yes"⟩)
      (fun n => if n = "subscribe" then some (JSValue.str "no") else none)
      [⟨"f1", "subscribe"⟩] = false :=
  ⟨(equals_rule_semantics _ _ _ ⟨"f1", "subscribe"⟩ rfl rfl rfl
      (by decide)).trans (by decide),
   (equals_rule_semantics _ _ _ ⟨"f1", "subscribe"⟩ rfl rfl rfl
      (by decide)).trans (by decide)⟩

/-- C6: the `not_empty` condition is true iff the source value is not
absent, not the empty string, not `null`, and not boolean `false`;
consequently, on an empty answer set an enabled resolving `not_empty`
rule yields `false` with action "show" and `true` with action "hide". -/
theorem not_empty_rule_semantics :
    (∀ (sv : Option JSValue) (tv : String),
       evalCondition RuleOperator.not_empty sv tv = true ↔
         (sv ≠ none ∧ sv ≠ some (JSValue.str "") ∧
          sv ≠ some JSValue.null ∧ sv ≠ some (JSValue.bool false))) ∧
    (∀ (c : ConditionalLogic) (fields : List FieldRef) (src : FieldRef),
       c.enabled = true → c.operator = RuleOperator.not_empty →
       fields.find? (fun f => f.id == c.sourceFieldId) = some src →
       (c.action = "show" →
          evaluateConditionalLogic (some c) (fun _ => none) fields = false) ∧
       (c.action = "hide" →
          evaluateConditionalLogic (some c) (fun _ => none) fields = true)) := by
  constructor
  · intro sv tv
    simp [evalCondition, bne_iff_ne, and_assoc]
  · intro c fields src hen hop hfind
    constructor <;> intro hact <;>
      simp [evaluateConditionalLogic, hen, hfind, hact, evalCondition, hop]

theorem not_empty_rule_semantics_witness :
    evalCondition RuleOperator.not_empty (some (JSValue.str "x")) "" = true ∧
    evaluateConditionalLogic
      (some ⟨true, "show", "f1", RuleOperator.not_empty, ""⟩)
      (fun _ => none) [⟨"f1", "subscribe"⟩] = false ∧
    evaluateConditionalLogic
      (some ⟨true, "hide", "f1", RuleOperator.not_empty, ""⟩)
      (fun _ => none) [⟨"f1", "subscribe"⟩] = true :=
  ⟨(not_empty_rule_semantics.1 _ _).mpr (by decide),
   (not_empty_rule_semantics.2 _ _ ⟨"f1", "subscribe"⟩ rfl rfl
      (by decide)).1 rfl,
   (not_empty_rule_semantics.2 _ _ ⟨"f1", "subscribe"⟩ rfl rfl
      (by decide)).2 rfl⟩

/-- C7: on every source value and comparison literal, the `not_equals`
condition is the exact boolean complement of the `equals` condition. -/
theorem not_equals_complements_equals (sv : Option JSValue) (tv : String) :
    evalCondition RuleOperator.not_equals sv tv
      = !(evalCondition RuleOperator.equals sv tv) := rfl

/-- C8: the `contains` condition holds exactly when the lower-cased rule
literal occurs as a contiguous substring of the lower-cased normalized
string form of the source value. -/
theorem contains_rule_semantics (sv : Option JSValue) (tv : String) :
    evalCondition RuleOperator.contains sv tv = true ↔
      (jsToLowerCase tv).data <:+:
        (jsToLowerCase (jsStringOrEmpty sv)).data := by
  simp [evalCondition, jsIncludes]

theorem contains_rule_semantics_witness :
    evalCondition RuleOperator.contains
      (some (JSValue.str "Blue Whale")) "whale" = true :=
  (contains_rule_semantics _ _).mpr (by decide)

/-- C9: the evaluator reads the answer set only at the resolved source
field's name — two answer sets that agree there (presence and value)
produce the same result, however they differ elsewhere. -/
theorem answers_noninterference (logic : Option ConditionalLogic)
    (fields : List FieldRef) (fd1 fd2 : String → Option JSValue)
    (h : ∀ c src, logic = some c →
       fields.find? (fun f => f.id == c.sourceFieldId) = some src →
       fd1 src.field_name = fd2 src.field_name) :
    evaluateConditionalLogic logic fd1 fields
      = evaluateConditionalLogic logic fd2 fields := by
  match logic with
  | none => rfl
  | some c =>
    cases hen : c.enabled with
    | false => simp [evaluateConditionalLogic, hen]
    | true =>
      match hfind : fields.find? (fun f => f.id == c.sourceFieldId) with
      | none => simp [evaluateConditionalLogic, hen, hfind]
      | some src =>
        have hagree := h c src rfl hfind
        simp [evaluateConditionalLogic, hen, hfind, hagree]

theorem answers_noninterference_witness :
    evaluateConditionalLogic
      (some ⟨true, "show", "f1", RuleOperator.equals, "yes"⟩)
      (fun n => if n = "subscribe" then some (JSValue.str "Yes") else none)
      [⟨"f1", "subscribe"⟩]
    = evaluateConditionalLogic
      (some ⟨true, "show", "f1", RuleOperator.equals, "yes"⟩)
      (fun n => if n = "subscribe" then some (JSValue.str "Yes")
                else some (JSValue.str "other"))
      [⟨"f1", "subscribe"⟩] :=
  answers_noninterference _ _ _ _ (by
    intro c src hc hfind
    cases hc
    simp [List.find?] at hfind
    subst hfind
    decide)

/-- C10: an enabled `contains` rule with empty comparison literal whose
source field resolves is met for every source value, absent included;
with action "show" the field is always visible and with action "hide"
always hidden, for every answer set. -/
theorem contains_empty_literal (c : ConditionalLogic)
    (formData : String → Option JSValue) (fields : List FieldRef)
    (src : FieldRef)
    (hen : c.enabled = true) (hop : c.operator = RuleOperator.contains)
    (hval : c.value = "")
    (hfind : fields.find? (fun f => f.id == c.sourceFieldId) = some src) :
    evalCondition c.operator (formData src.field_name) c.value = true ∧
    (c.action = "show" →
       evaluateConditionalLogic (some c) formData fields = true) ∧
    (c.action = "hide" →
       evaluateConditionalLogic (some c) formData fields = false) := by
  have hcond : ∀ sv : Option JSValue,
      evalCondition c.operator sv c.value = true := by
    intro sv
    simp [evalCondition, hop, hval, jsIncludes, jsToLowerCase]
  refine ⟨hcond _, ?_, ?_⟩ <;> intro hact <;>
    simp [evaluateConditionalLogic, hen, hfind, hact, hcond]

theorem contains_empty_literal_witness :
    evaluateConditionalLogic
      (some ⟨true, "hide", "f1", RuleOperator.contains, ""⟩)
      (fun _ => none) [⟨"f1", "subscribe"⟩] = false :=
  (contains_empty_literal _ _ _ ⟨"f1", "subscribe"⟩ rfl rfl rfl
    (by decide)).2.2 rfl

end AIFormBuilder
